import Mathlib

/-!
Verification of the kinesis-to-s3 forwarder (`src/lambda/main.py`).

This file gives a shallow embedding of the pure core of the Lambda:

* `normalize_kinesis_payload` / `normalize_parsed` — the Normalizer
  (CloudWatch Logs subscription-filter envelope handling);
* `classify_payload` — the body of the per-payload loop of
  `decode_validate` (classification with degraded naming and
  first-seen capture);
* `append_to_dict` — bucket accumulation with first-seen
  timestamp/identity capture;
* `bucket_key`, `serialize_records` — the key construction and
  record serialization of `upload_by_type` / `put_to_s3`.

Python values parsed from JSON are modelled by the inductive `Json`
(JSON numbers are modelled as integers; the claims under study never
involve floating-point payload values).  Python exceptions are
modelled by `Except PyErr`.  Effectful inputs (`datetime.datetime.now()`
and `uuid.uuid4()`) are threaded as explicit parameters `now` and
`fresh`.  External-library calls (`json.loads`, `dateutil.parser.parse`,
`urllib.parse.quote`, `gzip`) are modelled by executable Lean functions
documented at their definitions; everything else is translated directly
from the source.
-/

set_option autoImplicit false

namespace KinesisToS3

/-- A parsed JSON value (the result of Python `json.loads`).  Python
`None`/`True`/`False` coming out of `json.loads`, and the `None`
default of `dict.setdefault`, are `Json.null` / `Json.bool`.  Object
member order is the insertion order, as for Python dicts. -/
inductive Json where
  | null : Json
  | bool : Bool → Json
  | num : Int → Json
  | str : String → Json
  | arr : List Json → Json
  | obj : List (String × Json) → Json

mutual

/-- Decidable equality on `Json` (written by hand: `deriving` does not
handle the nested inductive). -/
def Json.decEq : (a b : Json) → Decidable (a = b)
  | Json.null, Json.null => isTrue rfl
  | Json.null, Json.bool _ => isFalse (fun h => Json.noConfusion h)
  | Json.null, Json.num _ => isFalse (fun h => Json.noConfusion h)
  | Json.null, Json.str _ => isFalse (fun h => Json.noConfusion h)
  | Json.null, Json.arr _ => isFalse (fun h => Json.noConfusion h)
  | Json.null, Json.obj _ => isFalse (fun h => Json.noConfusion h)
  | Json.bool _, Json.null => isFalse (fun h => Json.noConfusion h)
  | Json.bool x, Json.bool y =>
      if h : x = y then isTrue (h ▸ rfl)
      else isFalse (fun he => h (Json.bool.inj he))
  | Json.bool _, Json.num _ => isFalse (fun h => Json.noConfusion h)
  | Json.bool _, Json.str _ => isFalse (fun h => Json.noConfusion h)
  | Json.bool _, Json.arr _ => isFalse (fun h => Json.noConfusion h)
  | Json.bool _, Json.obj _ => isFalse (fun h => Json.noConfusion h)
  | Json.num _, Json.null => isFalse (fun h => Json.noConfusion h)
  | Json.num _, Json.bool _ => isFalse (fun h => Json.noConfusion h)
  | Json.num x, Json.num y =>
      if h : x = y then isTrue (h ▸ rfl)
      else isFalse (fun he => h (Json.num.inj he))
  | Json.num _, Json.str _ => isFalse (fun h => Json.noConfusion h)
  | Json.num _, Json.arr _ => isFalse (fun h => Json.noConfusion h)
  | Json.num _, Json.obj _ => isFalse (fun h => Json.noConfusion h)
  | Json.str _, Json.null => isFalse (fun h => Json.noConfusion h)
  | Json.str _, Json.bool _ => isFalse (fun h => Json.noConfusion h)
  | Json.str _, Json.num _ => isFalse (fun h => Json.noConfusion h)
  | Json.str x, Json.str y =>
      if h : x = y then isTrue (h ▸ rfl)
      else isFalse (fun he => h (Json.str.inj he))
  | Json.str _, Json.arr _ => isFalse (fun h => Json.noConfusion h)
  | Json.str _, Json.obj _ => isFalse (fun h => Json.noConfusion h)
  | Json.arr _, Json.null => isFalse (fun h => Json.noConfusion h)
  | Json.arr _, Json.bool _ => isFalse (fun h => Json.noConfusion h)
  | Json.arr _, Json.num _ => isFalse (fun h => Json.noConfusion h)
  | Json.arr _, Json.str _ => isFalse (fun h => Json.noConfusion h)
  | Json.arr xs, Json.arr ys =>
      match Json.decEqList xs ys with
      | isTrue h => isTrue (h ▸ rfl)
      | isFalse h => isFalse (fun he => h (Json.arr.inj he))
  | Json.arr _, Json.obj _ => isFalse (fun h => Json.noConfusion h)
  | Json.obj _, Json.null => isFalse (fun h => Json.noConfusion h)
  | Json.obj _, Json.bool _ => isFalse (fun h => Json.noConfusion h)
  | Json.obj _, Json.num _ => isFalse (fun h => Json.noConfusion h)
  | Json.obj _, Json.str _ => isFalse (fun h => Json.noConfusion h)
  | Json.obj _, Json.arr _ => isFalse (fun h => Json.noConfusion h)
  | Json.obj xs, Json.obj ys =>
      match Json.decEqObj xs ys with
      | isTrue h => isTrue (h ▸ rfl)
      | isFalse h => isFalse (fun he => h (Json.obj.inj he))

/-- Decidable equality on lists of `Json`. -/
def Json.decEqList : (xs ys : List Json) → Decidable (xs = ys)
  | [], [] => isTrue rfl
  | [], _ :: _ => isFalse (fun h => List.noConfusion h)
  | _ :: _, [] => isFalse (fun h => List.noConfusion h)
  | x :: xs, y :: ys =>
      match Json.decEq x y with
      | isFalse h1 => isFalse (fun he => h1 (List.cons.inj he).1)
      | isTrue h1 =>
          match Json.decEqList xs ys with
          | isTrue h2 => isTrue (by rw [h1, h2])
          | isFalse h2 => isFalse (fun he => h2 (List.cons.inj he).2)

/-- Decidable equality on object member lists. -/
def Json.decEqObj : (xs ys : List (String × Json)) → Decidable (xs = ys)
  | [], [] => isTrue rfl
  | [], _ :: _ => isFalse (fun h => List.noConfusion h)
  | _ :: _, [] => isFalse (fun h => List.noConfusion h)
  | (k1, v1) :: xs, (k2, v2) :: ys =>
      if h1 : k1 = k2 then
          match Json.decEq v1 v2 with
          | isFalse h2 =>
              isFalse (fun he => h2 (congrArg Prod.snd (List.cons.inj he).1))
          | isTrue h2 =>
              match Json.decEqObj xs ys with
              | isTrue h3 => isTrue (by rw [h1, h2, h3])
              | isFalse h3 => isFalse (fun he => h3 (List.cons.inj he).2)
      else isFalse (fun he => h1 (congrArg Prod.fst (List.cons.inj he).1))

end

instance : DecidableEq Json := Json.decEq

/-- The Python exception classes that the modelled code can raise. -/
inductive PyErr where
  | typeError : PyErr
  | valueError : PyErr
  | keyError : PyErr
  | attributeError : PyErr
  deriving DecidableEq, Repr

/-- A `datetime.datetime` value, restricted to the fields the key
format string reads. -/
structure PyDateTime where
  year : Nat
  month : Nat
  day : Nat
  hour : Nat
  minute : Nat
  second : Nat
  deriving DecidableEq, Repr

/-- The environment-variable configuration (`LOG_ID_FIELD`,
`LOG_TYPE_FIELD`, `LOG_TIMESTAMP_FIELD`, `LOG_TYPE_UNKNOWN_PREFIX`). -/
structure Config where
  idField : String
  typeField : String
  tsField : String
  unknownPfx : String
  deriving DecidableEq, Repr

/-- Python truthiness (`if x:`) of a JSON-derived value. -/
def truthy : Json → Bool
  | Json.null => false
  | Json.bool b => b
  | Json.num n => n != 0
  | Json.str s => s.length != 0
  | Json.arr xs => xs.length != 0
  | Json.obj kvs => kvs.length != 0

/-- Is this value a Python `str`? -/
def Json.isStr : Json → Bool
  | Json.str _ => true
  | _ => false

/-- Is this value a Python `dict`? -/
def Json.isObj : Json → Bool
  | Json.obj _ => true
  | _ => false

/-- First-match association lookup on a dict's member list (Python
`d[k]` / `k in d` on string keys; dict keys are unique so first match
is the match). -/
def lookupKV : List (String × Json) → String → Option Json
  | [], _ => none
  | (k, v) :: rest, key => if k = key then some v else lookupKV rest key

/-- Python `dict.setdefault(k, v)`: returns the updated member list
and the resulting value — the stored value when `k` is present,
otherwise `v`, which is inserted at the end (dicts keep insertion
order). -/
def setdefault (kvs : List (String × Json)) (k : String) (v : Json) :
    List (String × Json) × Json :=
  match lookupKV kvs k with
  | some w => (kvs, w)
  | none => (kvs ++ [(k, v)], v)

/-- One per-type bucket of `log_dict`: the accumulated records plus the
first-seen metadata (`records`, `first_timestamp`, `first_id` in the
source). `first_id` stays a raw Python value: the source stores
whatever `payload[LOG_ID_FIELD]` held (or a fresh UUID string). -/
structure Bucket where
  records : List Json
  first_timestamp : PyDateTime
  first_id : Json
  deriving DecidableEq

/-- `log_dict`: a Python dict from log type to bucket, in insertion
order.  Keys are raw Python values because the source uses
`payload[LOG_TYPE_FIELD]` unchecked as the dict key. -/
abbrev BucketMap := List (Json × Bucket)

/-- Lookup of a bucket by its (unique) key. -/
def lookupB : BucketMap → Json → Option Bucket
  | [], _ => none
  | (k, b) :: rest, key => if k = key then some b else lookupB rest key

/-- `dictionary[log_type].records.append(log_data)` on an existing
key. -/
def appendRec : BucketMap → Json → Json → BucketMap
  | [], _, _ => []
  | (k, b) :: rest, key, x =>
      if k = key then (k, { b with records := b.records ++ [x] }) :: rest
      else (k, b) :: appendRec rest key x

/-- Decimal digit value of a character, if it is a digit. -/
def digitVal (c : Char) : Option Nat :=
  if c.isDigit then some (c.toNat - 48) else none

/-- Combine four digit characters into a number (used for years). -/
def digits4 (a b c d : Char) : Option Nat := do
  let x ← digitVal a
  let y ← digitVal b
  let z ← digitVal c
  let w ← digitVal d
  pure (((x * 10 + y) * 10 + z) * 10 + w)

/-- Combine two digit characters into a number. -/
def digits2 (a b : Char) : Option Nat := do
  let x ← digitVal a
  let y ← digitVal b
  pure (x * 10 + y)

/-- Modelled from the external library `dateutil.parser.parse`,
restricted to ISO-8601 `YYYY-MM-DDTHH:MM:SS` timestamps with an
optional trailing `Z`.  Strings outside this shape stand for the
strings the permissive parser rejects. -/
def parse_iso (s : String) : Option PyDateTime :=
  match s.data with
  | [y1, y2, y3, y4, '-', m1, m2, '-', d1, d2, 'T',
     h1, h2, ':', n1, n2, ':', s1, s2] => do
      let y ← digits4 y1 y2 y3 y4
      let mo ← digits2 m1 m2
      let d ← digits2 d1 d2
      let h ← digits2 h1 h2
      let mi ← digits2 n1 n2
      let se ← digits2 s1 s2
      pure (PyDateTime.mk y mo d h mi se)
  | [y1, y2, y3, y4, '-', m1, m2, '-', d1, d2, 'T',
     h1, h2, ':', n1, n2, ':', s1, s2, 'Z'] => do
      let y ← digits4 y1 y2 y3 y4
      let mo ← digits2 m1 m2
      let d ← digits2 d1 d2
      let h ← digits2 h1 h2
      let mi ← digits2 n1 n2
      let se ← digits2 s1 s2
      pure (PyDateTime.mk y mo d h mi se)
  | _ => none

/-- `dateutil.parser.parse(v)` on a JSON-derived argument: a non-`str`
argument raises `TypeError`; a `str` the parser cannot interpret
raises a `ValueError` (`dateutil.parser.ParserError`). -/
def dateutil_parse (v : Json) : Except PyErr PyDateTime :=
  match v with
  | Json.str s =>
      match parse_iso s with
      | some dt => Except.ok dt
      | none => Except.error PyErr.valueError
  | _ => Except.error PyErr.typeError

/-- The first-record initialization block of `append_to_dict`
(main.py lines 69-90): compute `first_timestamp` and `first_id` for a
fresh bucket.  Only `TypeError` from the timestamp parse is caught
(falling back to `datetime.datetime.now()`, the `now` parameter); a
`ValueError` propagates.  A falsy `log_id` is replaced by
`str(uuid.uuid4())`, the `fresh` parameter. -/
def init_meta (log_timestamp log_id : Json) (now : PyDateTime)
    (fresh : String) : Except PyErr (PyDateTime × Json) :=
  let tsRes : Except PyErr PyDateTime :=
    if truthy log_timestamp then
      match dateutil_parse log_timestamp with
      | Except.ok t => Except.ok t
      | Except.error PyErr.typeError => Except.ok now
      | Except.error e => Except.error e
    else Except.ok now
  match tsRes with
  | Except.error e => Except.error e
  | Except.ok ts =>
      Except.ok (ts, if truthy log_id then log_id else Json.str fresh)

/-- `append_to_dict(dictionary, log_type, log_data, log_timestamp,
log_id)` (main.py lines 68-98).  The Python defaults
`log_timestamp=None`, `log_id=None` are passed as `Json.null`.
`now`/`fresh` stand for the values of `datetime.datetime.now()` and
`str(uuid.uuid4())` at this call. -/
def append_to_dict (d : BucketMap) (log_type log_data log_timestamp
    log_id : Json) (now : PyDateTime) (fresh : String) :
    Except PyErr BucketMap :=
  match lookupB d log_type with
  | some _ => Except.ok (appendRec d log_type log_data)
  | none =>
      match init_meta log_timestamp log_id now fresh with
      | Except.ok m =>
          Except.ok (d ++ [(log_type, Bucket.mk [log_data] m.1 m.2)])
      | Except.error e => Except.error e

/-- `log_type` after the type-field check of `decode_validate`
(main.py lines 186-195): the payload's value when the field is
present, else the synthesized `f"LOG_TYPE_UNKNOWN_PREFIX/unknown_type"`. -/
def raw_type_name (cfg : Config) (kvs : List (String × Json)) : Json :=
  match lookupKV kvs cfg.typeField with
  | some t => t
  | none => Json.str (cfg.unknownPfx ++ "/unknown_type")

/-- The degraded name built by the missing-timestamp branch
(main.py lines 203-205) for a string log type: prepend
`LOG_TYPE_UNKNOWN_PREFIX + "/"` unless already a prefix, then append
`"_no_timestamp"`. -/
def no_ts_name (unk : String) (s : String) : String :=
  (if List.isPrefixOf unk.data s.data then s else unk ++ "/" ++ s)
    ++ "_no_timestamp"

/-- The missing-timestamp renaming applied to the current `log_type`
value: `log_type.startswith(...)` raises `AttributeError` when
`log_type` is not a `str`. -/
def degrade_type (unk : String) (t : Json) : Except PyErr Json :=
  match t with
  | Json.str s => Except.ok (Json.str (no_ts_name unk s))
  | _ => Except.error PyErr.attributeError

/-- The body of the per-payload loop of `decode_validate`
(main.py lines 181-211): `setdefault` the id field (this mutates the
payload), read the type field with fallback, then dispatch on the
presence of the timestamp field.  `setdefault` on a non-dict payload
raises `AttributeError`. -/
def classify_payload (cfg : Config) (d : BucketMap) (payload : Json)
    (now : PyDateTime) (fresh : String) : Except PyErr BucketMap :=
  match payload with
  | Json.obj kvs0 =>
      let sd := setdefault kvs0 cfg.idField Json.null
      let kvs := sd.1
      let log_id := sd.2
      let log_type := raw_type_name cfg kvs
      match lookupKV kvs cfg.tsField with
      | some ts =>
          append_to_dict d log_type (Json.obj kvs) ts log_id now fresh
      | none =>
          match degrade_type cfg.unknownPfx log_type with
          | Except.ok t2 =>
              append_to_dict d t2 (Json.obj kvs) Json.null log_id now fresh
          | Except.error e => Except.error e
  | _ => Except.error PyErr.attributeError

/-- One call to `append_to_dict`, with the values of the effectful
inputs (`datetime.datetime.now()`, `str(uuid.uuid4())`) at that call. -/
structure AppendCall where
  log_type : Json
  log_data : Json
  log_timestamp : Json
  log_id : Json
  now : PyDateTime
  fresh : String

/-- A sequence of `append_to_dict` calls against the shared
`log_dict`, as performed over one invocation. -/
def run_appends (d : BucketMap) : List AppendCall → Except PyErr BucketMap
  | [] => Except.ok d
  | c :: cs =>
      match append_to_dict d c.log_type c.log_data c.log_timestamp
          c.log_id c.now c.fresh with
      | Except.ok d2 => run_appends d2 cs
      | Except.error e => Except.error e

/-! ### The Normalizer -/

/-- The opening curly brace character. -/
def lcurly : Char := Char.ofNat 123

/-- The closing curly brace character. -/
def rcurly : Char := Char.ofNat 125

/-- The apostrophe character (Python string-repr quote). -/
def chr39 : Char := Char.ofNat 39

/-- Skip JSON whitespace. -/
def skipWs : List Char → List Char
  | [] => []
  | c :: cs =>
      if c = ' ' ∨ c = '\t' ∨ c = '\n' ∨ c = '\r' then skipWs cs
      else c :: cs

/-- Hexadecimal digit value of a character, if any. -/
def hexVal (c : Char) : Option Nat :=
  if c.isDigit then some (c.toNat - 48)
  else if 'a' ≤ c ∧ c ≤ 'f' then some (c.toNat - 87)
  else if 'A' ≤ c ∧ c ≤ 'F' then some (c.toNat - 55)
  else none

/-- Parse the remainder of a JSON string literal (the opening quote
already consumed), accumulating decoded characters. -/
def parseStrChars : List Char → List Char → Option (String × List Char)
  | '"' :: rest, acc => some (String.mk acc.reverse, rest)
  | '\\' :: 'n' :: rest, acc => parseStrChars rest ('\n' :: acc)
  | '\\' :: 't' :: rest, acc => parseStrChars rest ('\t' :: acc)
  | '\\' :: 'r' :: rest, acc => parseStrChars rest ('\r' :: acc)
  | '\\' :: '"' :: rest, acc => parseStrChars rest ('"' :: acc)
  | '\\' :: '\\' :: rest, acc => parseStrChars rest ('\\' :: acc)
  | '\\' :: '/' :: rest, acc => parseStrChars rest ('/' :: acc)
  | '\\' :: 'b' :: rest, acc => parseStrChars rest (Char.ofNat 8 :: acc)
  | '\\' :: 'f' :: rest, acc => parseStrChars rest (Char.ofNat 12 :: acc)
  | '\\' :: 'u' :: a :: b :: c :: d :: rest, acc =>
      match hexVal a, hexVal b, hexVal c, hexVal d with
      | some x1, some x2, some x3, some x4 =>
          parseStrChars rest
            (Char.ofNat (((x1 * 16 + x2) * 16 + x3) * 16 + x4) :: acc)
      | _, _, _, _ => none
  | '\\' :: _, _ => none
  | c :: rest, acc => parseStrChars rest (c :: acc)
  | [], _ => none

/-- Greedily read a nonempty run of decimal digits. -/
def parseNatDigits (cs : List Char) : Option (Nat × List Char) :=
  match cs.takeWhile Char.isDigit with
  | [] => none
  | ds =>
      some (ds.foldl (fun acc c => acc * 10 + (c.toNat - 48)) 0,
        cs.dropWhile Char.isDigit)

/-- Parse a JSON integer (an optional minus sign and digits). -/
def parseNum : List Char → Option (Json × List Char)
  | '-' :: cs =>
      match parseNatDigits cs with
      | some (n, rest) => some (Json.num (-(n : Int)), rest)
      | none => none
  | cs =>
      match parseNatDigits cs with
      | some (n, rest) => some (Json.num (n : Int), rest)
      | none => none

mutual

/-- Fuel-indexed recursive-descent JSON value parser. -/
def parseJsonVal : Nat → List Char → Option (Json × List Char)
  | 0, _ => none
  | Nat.succ f, cs0 =>
      match skipWs cs0 with
      | 'n' :: 'u' :: 'l' :: 'l' :: rest => some (Json.null, rest)
      | 't' :: 'r' :: 'u' :: 'e' :: rest => some (Json.bool true, rest)
      | 'f' :: 'a' :: 'l' :: 's' :: 'e' :: rest =>
          some (Json.bool false, rest)
      | '"' :: rest =>
          match parseStrChars rest [] with
          | some (s, rest2) => some (Json.str s, rest2)
          | none => none
      | '[' :: rest =>
          match skipWs rest with
          | ']' :: rest2 => some (Json.arr [], rest2)
          | cs2 => parseArrItems f cs2 []
      | c :: rest =>
          if c = lcurly then
            match skipWs rest with
            | [] => none
            | c2 :: rest2 =>
                if c2 = rcurly then some (Json.obj [], rest2)
                else parseObjItems f (c2 :: rest2) []
          else parseNum (c :: rest)
      | [] => none

/-- Parse the items of a JSON array after the opening bracket. -/
def parseArrItems : Nat → List Char → List Json →
    Option (Json × List Char)
  | 0, _, _ => none
  | Nat.succ f, cs, acc =>
      match parseJsonVal f cs with
      | none => none
      | some (v, rest) =>
          match skipWs rest with
          | ',' :: rest2 => parseArrItems f rest2 (acc ++ [v])
          | ']' :: rest2 => some (Json.arr (acc ++ [v]), rest2)
          | _ => none

/-- Parse the members of a JSON object after the opening brace. -/
def parseObjItems : Nat → List Char → List (String × Json) →
    Option (Json × List Char)
  | 0, _, _ => none
  | Nat.succ f, cs, acc =>
      match cs with
      | '"' :: rest =>
          match parseStrChars rest [] with
          | none => none
          | some (k, rest2) =>
              match skipWs rest2 with
              | ':' :: rest3 =>
                  match parseJsonVal f rest3 with
                  | none => none
                  | some (v, rest4) =>
                      match skipWs rest4 with
                      | ',' :: rest5 =>
                          parseObjItems f (skipWs rest5) (acc ++ [(k, v)])
                      | c5 :: rest5 =>
                          if c5 = rcurly then
                            some (Json.obj (acc ++ [(k, v)]), rest5)
                          else none
                      | [] => none
              | _ => none
      | _ => none

end

/-- Modelled from the external library call `json.loads`: parse a
whole string as a JSON value (JSON numbers restricted to integers;
the claims under study use no floating-point payloads).  `none`
stands for `json.JSONDecodeError`. -/
def jsonParse (s : String) : Option Json :=
  match parseJsonVal (2 * s.length + 2) s.data with
  | some (v, rest) => if skipWs rest = [] then some v else none
  | none => none

/-- Does `needle` occur as a contiguous run inside `hay`? (Python
substring membership.) -/
def strContains (needle : List Char) : List Char → Bool
  | [] => List.isPrefixOf needle []
  | c :: cs =>
      if List.isPrefixOf needle (c :: cs) then true else strContains needle cs

/-- Python `needle in container` for a string needle: key membership
for a dict, element membership for a list, substring test for a str,
`TypeError` otherwise. -/
def pyIn (needle : String) : Json → Except PyErr Bool
  | Json.obj kvs => Except.ok (lookupKV kvs needle).isSome
  | Json.arr xs => Except.ok (xs.contains (Json.str needle))
  | Json.str s => Except.ok (strContains needle.data s.data)
  | _ => Except.error PyErr.typeError

/-- Python `container[k]` for a string subscript: dict lookup
(`KeyError` when absent); any other receiver raises `TypeError`. -/
def pySubscript (container : Json) (k : String) : Except PyErr Json :=
  match container with
  | Json.obj kvs =>
      match lookupKV kvs k with
      | some v => Except.ok v
      | none => Except.error PyErr.keyError
  | _ => Except.error PyErr.typeError

/-- Python `for x in v` as a list of iterates: a list yields its
elements, a dict its keys, a str its characters; other values raise
`TypeError`. -/
def pyIterate : Json → Except PyErr (List Json)
  | Json.arr xs => Except.ok xs
  | Json.obj kvs => Except.ok (kvs.map (fun kv => Json.str kv.1))
  | Json.str s => Except.ok (s.data.map (fun c => Json.str (String.mk [c])))
  | _ => Except.error PyErr.typeError

/-- The per-event loop of the `DATA_MESSAGE` branch
(main.py lines 127-140): `json.loads(event['message'])` inside a
`try` that catches only `JSONDecodeError`.  A missing `message` key
(`KeyError`) or a non-string `message` value (`TypeError` from
`json.loads`) propagates; an unparsable string message is skipped. -/
def process_events : List Json → Except PyErr (List Json)
  | [] => Except.ok []
  | ev :: rest =>
      match pySubscript ev "message" with
      | Except.error e => Except.error e
      | Except.ok (Json.str s) =>
          match jsonParse s with
          | some p =>
              match process_events rest with
              | Except.ok ps => Except.ok (p :: ps)
              | Except.error e => Except.error e
          | none => process_events rest
      | Except.ok _ => Except.error PyErr.typeError

/-- `normalize_kinesis_payload` after the `json.loads` step
(main.py lines 121-153): dispatch on the presence and value of the
`messageType` discriminator. -/
def normalize_parsed (payload : Json) : Except PyErr (List Json) :=
  match pyIn "messageType" payload with
  | Except.error e => Except.error e
  | Except.ok true =>
      match pySubscript payload "messageType" with
      | Except.error e => Except.error e
      | Except.ok mt =>
          if mt = Json.str "DATA_MESSAGE" then
            match pyIn "logEvents" payload with
            | Except.error e => Except.error e
            | Except.ok true =>
                match pySubscript payload "logEvents" with
                | Except.error e => Except.error e
                | Except.ok evs =>
                    match pyIterate evs with
                    | Except.error e => Except.error e
                    | Except.ok l => process_events l
            | Except.ok false => Except.ok []
          else if mt = Json.str "CONTROL_MESSAGE" then Except.ok []
          else Except.error PyErr.valueError
  | Except.ok false => Except.ok [payload]

/-- `normalize_kinesis_payload(payload)` (main.py lines 102-154) on
the decoded text: the length guard, the `json.loads` with
`JSONDecodeError` caught (empty result), then the envelope dispatch. -/
def normalize_kinesis_payload (s : String) : Except PyErr (List Json) :=
  if s.length < 1 then Except.ok []
  else
    match jsonParse s with
    | none => Except.ok []
    | some v => normalize_parsed v

/-! ### The Uploader -/

/-- Lowercase hexadecimal digit. -/
def hexDigitL (n : Nat) : Char :=
  if n < 10 then Char.ofNat (48 + n) else Char.ofNat (87 + n)

/-- Uppercase hexadecimal digit. -/
def hexDigitU (n : Nat) : Char :=
  if n < 10 then Char.ofNat (48 + n) else Char.ofNat (55 + n)

/-- Python `repr` escaping of one character inside a single-quoted
string literal (ASCII control characters as `\xHH`). -/
def reprChar (c : Char) : List Char :=
  if c = '\\' then ['\\', '\\']
  else if c = chr39 then ['\\', chr39]
  else if c = '\n' then ['\\', 'n']
  else if c = '\r' then ['\\', 'r']
  else if c = '\t' then ['\\', 't']
  else if c.toNat < 32 then
    ['\\', 'x', hexDigitL (c.toNat / 16), hexDigitL (c.toNat % 16)]
  else [c]

/-- Python `repr` of a string, always in the single-quoted form (the
double-quote preference of CPython for strings containing an
apostrophe is not modelled; no claim input contains one). -/
def pyReprStr (s : String) : String :=
  String.mk (chr39 :: s.data.foldr (fun c acc => reprChar c ++ acc) [chr39])

/-- Python `sep.join(parts)`. -/
def pyJoin (sep : String) : List String → String
  | [] => ""
  | [x] => x
  | x :: xs => x ++ sep ++ pyJoin sep xs

/-- Decimal digits of a positive number, most significant first,
prepended to `acc`. -/
def natDecimalAux (n : Nat) (acc : List Char) : List Char :=
  if h : n = 0 then acc
  else natDecimalAux (n / 10) (Char.ofNat (48 + n % 10) :: acc)
  termination_by n
  decreasing_by exact Nat.div_lt_self (Nat.pos_of_ne_zero h) (by omega)

/-- Python `str` of a natural number. -/
def natDecimal (n : Nat) : List Char :=
  if n = 0 then ['0'] else natDecimalAux n []

/-- Python `str` of an integer. -/
def intDecimal : Int → List Char
  | Int.ofNat m => natDecimal m
  | Int.negSucc m => '-' :: natDecimal (m + 1)

mutual

/-- Python `repr` of a JSON-derived value (`str` on containers
delegates to `repr` of the elements). -/
def pyRepr : Json → String
  | Json.null => "None"
  | Json.bool true => "True"
  | Json.bool false => "False"
  | Json.num n => String.mk (intDecimal n)
  | Json.str s => pyReprStr s
  | Json.arr xs => "[" ++ pyJoin ", " (pyReprList xs) ++ "]"
  | Json.obj kvs => "\x7b" ++ pyJoin ", " (pyReprObj kvs) ++ "\x7d"

/-- `repr` of the elements of a list. -/
def pyReprList : List Json → List String
  | [] => []
  | x :: xs => pyRepr x :: pyReprList xs

/-- `repr` of the members of a dict, as `key: value` parts. -/
def pyReprObj : List (String × Json) → List String
  | [] => []
  | (k, v) :: kvs => (pyReprStr k ++ ": " ++ pyRepr v) :: pyReprObj kvs

end

/-- Python `str(record)` on a JSON-derived value. -/
def pyStr : Json → String
  | Json.str s => s
  | v => pyRepr v

/-- `'\n'.join(str(record) for record in records)`
(main.py line 241). -/
def serialize_records (records : List Json) : String :=
  pyJoin "\n" (records.map pyStr)

/-- Splitting a text by newline (Python `text.split('\n')`), the
round-trip operation named by the spec. -/
def split_nl_aux : List Char → List Char → List (List Char)
  | [], acc => [acc.reverse]
  | c :: cs, acc =>
      if c = '\n' then acc.reverse :: split_nl_aux cs []
      else split_nl_aux cs (c :: acc)

/-- Splitting a string by newline. -/
def split_nl (s : String) : List String :=
  (split_nl_aux s.data []).map String.mk

/-- UTF-8 bytes of one character. -/
def utf8Bytes (c : Char) : List Nat :=
  let n := c.toNat
  if n < 128 then [n]
  else if n < 2048 then [192 + n / 64, 128 + n % 64]
  else if n < 65536 then
    [224 + n / 4096, 128 + (n / 64) % 64, 128 + n % 64]
  else
    [240 + n / 262144, 128 + (n / 4096) % 64, 128 + (n / 64) % 64,
     128 + n % 64]

/-- Percent-encode one byte, uppercase, as `urllib.parse.quote`
does. -/
def pctByte (b : Nat) : List Char :=
  ['%', hexDigitU (b / 16), hexDigitU (b % 16)]

/-- One character under `urllib.parse.quote` with the default
`safe='/'`: ASCII letters, digits, `_.-~` and `/` pass through,
everything else is percent-encoded per UTF-8 byte. -/
def quoteChar (c : Char) : List Char :=
  if c.isAlphanum ∨ c = '_' ∨ c = '.' ∨ c = '-' ∨ c = '~' ∨ c = '/'
  then [c]
  else (utf8Bytes c).foldr (fun b acc => pctByte b ++ acc) []

/-- Modelled from the external library call
`urllib.parse.quote(first_id)`: percent-encoding of a `str`; any
other argument raises `TypeError`. -/
def pyQuote : Json → Except PyErr String
  | Json.str s =>
      Except.ok (String.mk (s.data.foldr (fun c acc => quoteChar c ++ acc) []))
  | _ => Except.error PyErr.typeError

/-- A number rendered in decimal, zero-padded to two digits. -/
def pad2 (n : Nat) : String :=
  if n < 10 then "0" ++ toString n else toString n

/-- A number rendered in decimal, zero-padded to four digits
(`%Y`). -/
def pad4 (n : Nat) : String :=
  if n < 10 then "000" ++ toString n
  else if n < 100 then "00" ++ toString n
  else if n < 1000 then "0" ++ toString n
  else toString n

/-- `first_timestamp.strftime("%Y-%m/%d/%Y-%m-%d-%H:%M:%S-")`
(main.py line 234). -/
def strftime_key (dt : PyDateTime) : String :=
  pad4 dt.year ++ "-" ++ pad2 dt.month ++ "/" ++ pad2 dt.day ++ "/" ++
  pad4 dt.year ++ "-" ++ pad2 dt.month ++ "-" ++ pad2 dt.day ++ "-" ++
  pad2 dt.hour ++ ":" ++ pad2 dt.minute ++ ":" ++ pad2 dt.second ++ "-"

/-- The storage-key construction of `upload_by_type` for one bucket
(main.py lines 228-234): percent-quote `first_id`, then concatenate
prefix, log type, the `strftime` rendering of `first_timestamp`, the
quoted id and `".gz"`.  String concatenation with a non-`str` log
type raises `TypeError`. -/
def bucket_key (pathPfx : String) (log_type : Json) (b : Bucket) :
    Except PyErr String :=
  match pyQuote b.first_id with
  | Except.error e => Except.error e
  | Except.ok fid =>
      match log_type with
      | Json.str t =>
          Except.ok (pathPfx ++ "/" ++ t ++ "/" ++
            strftime_key b.first_timestamp ++ fid ++ ".gz")
      | _ => Except.error PyErr.typeError

/-! ### Helper lemmas about the association-list operations -/

theorem lookupKV_append_ne (xs : List (String × Json)) (k key : String)
    (v : Json) (h : k ≠ key) :
    lookupKV (xs ++ [(k, v)]) key = lookupKV xs key := by
  induction xs with
  | nil => simp [lookupKV, h]
  | cons kv rest ih =>
      obtain ⟨a, b⟩ := kv
      simp only [List.cons_append, lookupKV]
      split
      · rfl
      · exact ih

theorem lookup_setdefault_ne (kvs : List (String × Json)) (k key : String)
    (v : Json) (h : k ≠ key) :
    lookupKV (setdefault kvs k v).1 key = lookupKV kvs key := by
  unfold setdefault
  cases hl : lookupKV kvs k with
  | some w => rfl
  | none => exact lookupKV_append_ne kvs k key v h

theorem setdefault_of_some (kvs : List (String × Json)) (k : String)
    (v w : Json) (h : lookupKV kvs k = some w) :
    setdefault kvs k v = (kvs, w) := by
  unfold setdefault; rw [h]

theorem setdefault_of_none (kvs : List (String × Json)) (k : String)
    (v : Json) (h : lookupKV kvs k = none) :
    setdefault kvs k v = (kvs ++ [(k, v)], v) := by
  unfold setdefault; rw [h]

theorem lookupB_append_of_some (d : BucketMap) (t t2 : Json)
    (b nb : Bucket) (h : lookupB d t2 = some b) :
    lookupB (d ++ [(t, nb)]) t2 = some b := by
  induction d with
  | nil => simp [lookupB] at h
  | cons kb rest ih =>
      obtain ⟨k, b0⟩ := kb
      simp only [lookupB, List.cons_append] at h ⊢
      split at h
      · simp_all [lookupB]
      · simp_all [lookupB]

theorem lookupB_append_of_none (d : BucketMap) (t t2 : Json)
    (nb : Bucket) (h : lookupB d t2 = none) :
    lookupB (d ++ [(t, nb)]) t2 = if t = t2 then some nb else none := by
  induction d with
  | nil => simp [lookupB]
  | cons kb rest ih =>
      obtain ⟨k, b0⟩ := kb
      simp only [lookupB, List.cons_append] at h ⊢
      split at h
      · exact absurd h (by simp)
      · simp_all [lookupB]

theorem lookupB_appendRec_some (d : BucketMap) (t x t2 : Json)
    (b : Bucket) (h : lookupB d t2 = some b) :
    lookupB (appendRec d t x) t2 =
      some (if t2 = t then { b with records := b.records ++ [x] } else b)
    := by
  induction d with
  | nil => simp [lookupB] at h
  | cons kb rest ih =>
      obtain ⟨k, b0⟩ := kb
      simp only [lookupB] at h
      by_cases hk : k = t
      · subst hk
        by_cases h2 : k = t2
        · subst h2
          simp only [if_pos rfl] at h
          simp only [appendRec, if_pos rfl, lookupB]
          cases h
          simp
        · simp only [if_neg h2] at h
          simp only [appendRec, if_pos rfl, lookupB, if_neg h2]
          rw [h]
          have : t2 ≠ k := fun hc => h2 hc.symm
          simp [this]
      · by_cases h2 : k = t2
        · subst h2
          simp only [if_pos rfl] at h
          cases h
          simp [appendRec, if_neg hk, lookupB, hk]
        · simp only [if_neg h2] at h
          simp only [appendRec, if_neg hk, lookupB, if_neg h2]
          exact ih h

theorem lookupB_appendRec_none (d : BucketMap) (t x t2 : Json)
    (h : lookupB d t2 = none) :
    lookupB (appendRec d t x) t2 = none := by
  induction d with
  | nil => simp [appendRec, lookupB]
  | cons kb rest ih =>
      obtain ⟨k, b0⟩ := kb
      simp only [lookupB] at h
      split at h
      · exact absurd h (by simp)
      · by_cases hk : k = t
        · subst hk
          simp only [appendRec, if_pos rfl, lookupB]
          simp_all [lookupB]
        · simp only [appendRec, if_neg hk, lookupB]
          simp_all [lookupB]

/-! ### Helper lemmas about `append_to_dict` -/

theorem append_to_dict_existing (d : BucketMap) (t p ts lid : Json)
    (now : PyDateTime) (fresh : String) (b : Bucket)
    (h : lookupB d t = some b) :
    append_to_dict d t p ts lid now fresh = Except.ok (appendRec d t p)
    := by
  unfold append_to_dict; rw [h]

theorem append_to_dict_new (d : BucketMap) (t p ts lid : Json)
    (now : PyDateTime) (fresh : String) (m : PyDateTime × Json)
    (h : lookupB d t = none) (hm : init_meta ts lid now fresh = Except.ok m) :
    append_to_dict d t p ts lid now fresh =
      Except.ok (d ++ [(t, Bucket.mk [p] m.1 m.2)]) := by
  unfold append_to_dict; rw [h, hm]

theorem init_meta_falsy_ts (ts lid : Json) (now : PyDateTime)
    (fresh : String) (h : truthy ts = false) :
    init_meta ts lid now fresh =
      Except.ok (now, if truthy lid then lid else Json.str fresh) := by
  unfold init_meta; rw [h]; simp

theorem init_meta_nonstr_ts (ts lid : Json) (now : PyDateTime)
    (fresh : String) (h : truthy ts = true) (h2 : ts.isStr = false) :
    init_meta ts lid now fresh =
      Except.ok (now, if truthy lid then lid else Json.str fresh) := by
  unfold init_meta
  rw [h]
  cases ts <;> simp_all [Json.isStr, dateutil_parse]

theorem init_meta_bad_str_ts (s : String) (lid : Json) (now : PyDateTime)
    (fresh : String) (h : truthy (Json.str s) = true)
    (h2 : parse_iso s = none) :
    init_meta (Json.str s) lid now fresh = Except.error PyErr.valueError
    := by
  unfold init_meta
  rw [h]
  simp [dateutil_parse, h2]

/-! ### Helper lemmas about `run_appends` -/

theorem run_appends_preserves_meta (cs : List AppendCall) (dfin : BucketMap)
    (t : Json) :
    ∀ (d : BucketMap) (b : Bucket),
      run_appends d cs = Except.ok dfin → lookupB d t = some b →
      ∃ b2, lookupB dfin t = some b2 ∧
        b2.first_timestamp = b.first_timestamp ∧ b2.first_id = b.first_id
    := by
  induction cs with
  | nil =>
      intro d b hrun hb
      simp only [run_appends] at hrun
      injection hrun with h
      subst h
      exact ⟨b, hb, rfl, rfl⟩
  | cons c cs ih =>
      intro d b hrun hb
      simp only [run_appends] at hrun
      cases ha : append_to_dict d c.log_type c.log_data c.log_timestamp
          c.log_id c.now c.fresh with
      | error e => rw [ha] at hrun; cases hrun
      | ok d1 =>
          rw [ha] at hrun
          unfold append_to_dict at ha
          cases hl : lookupB d c.log_type with
          | some b0 =>
              rw [hl] at ha
              injection ha with ha
              subst ha
              have h2 := lookupB_appendRec_some d c.log_type c.log_data t b hb
              obtain ⟨b2, hb2, m1, m2⟩ := ih _ _ hrun h2
              refine ⟨b2, hb2, ?_, ?_⟩
              · rw [m1]; split <;> rfl
              · rw [m2]; split <;> rfl
          | none =>
              rw [hl] at ha
              cases hm : init_meta c.log_timestamp c.log_id c.now c.fresh with
              | error e => rw [hm] at ha; cases ha
              | ok m =>
                  rw [hm] at ha
                  injection ha with ha
                  subst ha
                  exact ih _ _ hrun
                    (lookupB_append_of_some d c.log_type t b
                      (Bucket.mk [c.log_data] m.1 m.2) hb)

theorem append_to_dict_creates (d : BucketMap) (c : AppendCall)
    (d1 : BucketMap) (t : Json) (h0 : lookupB d t = none)
    (ha : append_to_dict d c.log_type c.log_data c.log_timestamp c.log_id
      c.now c.fresh = Except.ok d1) :
    (c.log_type = t →
      ∃ m, init_meta c.log_timestamp c.log_id c.now c.fresh = Except.ok m ∧
        lookupB d1 t = some (Bucket.mk [c.log_data] m.1 m.2)) ∧
    (c.log_type ≠ t → lookupB d1 t = none) := by
  unfold append_to_dict at ha
  cases hl : lookupB d c.log_type with
  | some b0 =>
      rw [hl] at ha
      injection ha with ha
      subst ha
      constructor
      · intro he; rw [he, h0] at hl; cases hl
      · intro _; exact lookupB_appendRec_none d _ _ t h0
  | none =>
      rw [hl] at ha
      cases hm : init_meta c.log_timestamp c.log_id c.now c.fresh with
      | error e => rw [hm] at ha; cases ha
      | ok m =>
          rw [hm] at ha
          injection ha with ha
          subst ha
          constructor
          · intro he
            subst he
            refine ⟨m, rfl, ?_⟩
            rw [lookupB_append_of_none d c.log_type c.log_type _ h0]
            simp
          · intro hne
            rw [lookupB_append_of_none d c.log_type t _ h0]
            simp [hne]

/-! ### Helper lemmas for the serialize/split round trip -/

theorem str_data_append (a b : String) : (a ++ b).data = a.data ++ b.data
    := by
  cases a; cases b; rfl

theorem mk_data_eq (s : String) : String.mk s.data = s := by
  cases s; rfl

theorem noNl_append (a b : String) (ha : ∀ c ∈ a.data, c ≠ '\n')
    (hb : ∀ c ∈ b.data, c ≠ '\n') : ∀ c ∈ (a ++ b).data, c ≠ '\n' := by
  rw [str_data_append]
  intro c hc
  rcases List.mem_append.mp hc with h | h
  · exact ha c h
  · exact hb c h

theorem digitChar48_ne_nl (k : Nat) (hk : k < 10) :
    Char.ofNat (48 + k) ≠ '\n' := by
  interval_cases k <;> decide

theorem hexDigitL_ne_nl (k : Nat) (hk : k < 16) : hexDigitL k ≠ '\n' := by
  interval_cases k <;> decide

theorem reprChar_no_nl (c c2 : Char) (h : c2 ∈ reprChar c) : c2 ≠ '\n'
    := by
  unfold reprChar at h
  split at h
  · simp at h; subst h; decide
  · split at h
    · simp at h
      rcases h with h | h <;> subst h <;> decide
    · split at h
      · simp at h
        rcases h with h | h <;> subst h <;> decide
      · split at h
        · simp at h
          rcases h with h | h <;> subst h <;> decide
        · split at h
          · simp at h
            rcases h with h | h <;> subst h <;> decide
          · split at h
            · simp at h
              rcases h with h | h | h | h
              · subst h; decide
              · subst h; decide
              · subst h
                exact hexDigitL_ne_nl _ (by omega)
              · subst h
                exact hexDigitL_ne_nl _ (Nat.mod_lt _ (by omega))
            · next h1 h2 h3 h4 h5 h6 =>
              simp at h
              subst h
              exact h3

theorem natDecimalAux_no_nl (n : Nat) :
    ∀ acc, (∀ c ∈ acc, c ≠ '\n') → ∀ c ∈ natDecimalAux n acc, c ≠ '\n'
    := by
  induction n using Nat.strong_induction_on with
  | _ n ih =>
      intro acc hacc c hc
      unfold natDecimalAux at hc
      split at hc
      · exact hacc c hc
      · next h =>
        refine ih (n / 10) (Nat.div_lt_self (Nat.pos_of_ne_zero h)
          (by omega)) _ ?_ c hc
        intro c2 h2
        rcases List.mem_cons.mp h2 with h2 | h2
        · subst h2
          exact digitChar48_ne_nl _ (Nat.mod_lt _ (by omega))
        · exact hacc c2 h2

theorem natDecimal_no_nl (n : Nat) : ∀ c ∈ natDecimal n, c ≠ '\n' := by
  intro c hc
  unfold natDecimal at hc
  split at hc
  · simp at hc; subst hc; decide
  · exact natDecimalAux_no_nl n [] (by simp) c hc

theorem intDecimal_no_nl (n : Int) : ∀ c ∈ intDecimal n, c ≠ '\n' := by
  cases n with
  | ofNat m =>
      intro c hc
      simp only [intDecimal] at hc
      exact natDecimal_no_nl m c hc
  | negSucc m =>
      intro c hc
      simp only [intDecimal] at hc
      rcases List.mem_cons.mp hc with h | h
      · subst h; decide
      · exact natDecimal_no_nl (m + 1) c h

theorem pyReprStr_no_nl (s : String) :
    ∀ c ∈ (pyReprStr s).data, c ≠ '\n' := by
  have haux : ∀ l : List Char,
      ∀ c2 ∈ l.foldr (fun a acc => reprChar a ++ acc) [chr39], c2 ≠ '\n'
    := by
    intro l
    induction l with
    | nil => intro c2 h2; simp at h2; subst h2; decide
    | cons a l ih =>
        intro c2 h2
        simp only [List.foldr] at h2
        rcases List.mem_append.mp h2 with h2 | h2
        · exact reprChar_no_nl a c2 h2
        · exact ih c2 h2
  intro c hc
  rcases List.mem_cons.mp hc with h | h
  · subst h; decide
  · exact haux s.data c h

theorem pyJoin_no_nl (sep : String) (hsep : ∀ c ∈ sep.data, c ≠ '\n') :
    ∀ l : List String, (∀ s ∈ l, ∀ c ∈ s.data, c ≠ '\n') →
      ∀ c ∈ (pyJoin sep l).data, c ≠ '\n' := by
  intro l
  induction l with
  | nil => intro _ c hc; simp [pyJoin] at hc
  | cons x xs ih =>
      intro h
      cases xs with
      | nil => exact h x (by simp)
      | cons y ys =>
          exact noNl_append _ _
            (noNl_append _ _ (h x (by simp)) hsep)
            (ih (fun s hs => h s (by simp [hs])))

mutual

theorem pyRepr_no_nl : ∀ j : Json, ∀ c ∈ (pyRepr j).data, c ≠ '\n'
  | Json.null => by intro c hc; rw [pyRepr] at hc; revert c hc; decide
  | Json.bool true => by intro c hc; rw [pyRepr] at hc; revert c hc; decide
  | Json.bool false => by
      intro c hc; rw [pyRepr] at hc; revert c hc; decide
  | Json.num n => by
      intro c hc
      rw [pyRepr] at hc
      exact intDecimal_no_nl n c hc
  | Json.str s => by
      intro c hc
      rw [pyRepr] at hc
      exact pyReprStr_no_nl s c hc
  | Json.arr xs => by
      intro c hc
      rw [pyRepr] at hc
      refine noNl_append _ _ (noNl_append _ _ (by decide)
        (pyJoin_no_nl ", " (by decide) _ (pyReprList_no_nl xs)))
        (by decide) c hc
  | Json.obj kvs => by
      intro c hc
      rw [pyRepr] at hc
      refine noNl_append _ _ (noNl_append _ _ (by decide)
        (pyJoin_no_nl ", " (by decide) _ (pyReprObj_no_nl kvs)))
        (by decide) c hc

theorem pyReprList_no_nl : ∀ xs : List Json,
    ∀ s ∈ pyReprList xs, ∀ c ∈ s.data, c ≠ '\n'
  | [] => by intro s hs; rw [pyReprList] at hs; simp at hs
  | x :: xs => by
      intro s hs
      rw [pyReprList] at hs
      rcases List.mem_cons.mp hs with h | h
      · subst h; exact pyRepr_no_nl x
      · exact pyReprList_no_nl xs s h

theorem pyReprObj_no_nl : ∀ kvs : List (String × Json),
    ∀ s ∈ pyReprObj kvs, ∀ c ∈ s.data, c ≠ '\n'
  | [] => by intro s hs; rw [pyReprObj] at hs; simp at hs
  | (k, v) :: kvs => by
      intro s hs
      rw [pyReprObj] at hs
      rcases List.mem_cons.mp hs with h | h
      · subst h
        exact noNl_append _ _
          (noNl_append _ _ (pyReprStr_no_nl k) (by decide))
          (pyRepr_no_nl v)
      · exact pyReprObj_no_nl kvs s h

end

theorem split_nl_aux_of_no_nl (cs : List Char) :
    ∀ acc, (∀ c ∈ cs, c ≠ '\n') →
      split_nl_aux cs acc = [acc.reverse ++ cs] := by
  induction cs with
  | nil => intro acc _; simp [split_nl_aux]
  | cons c cs ih =>
      intro acc h
      have hc : c ≠ '\n' := h c (by simp)
      simp only [split_nl_aux, if_neg hc]
      rw [ih (c :: acc) (fun c2 hm => h c2 (by simp [hm]))]
      simp

theorem split_nl_aux_append (xs : List Char) (rest : List Char) :
    ∀ acc, (∀ c ∈ xs, c ≠ '\n') →
      split_nl_aux (xs ++ '\n' :: rest) acc =
        (acc.reverse ++ xs) :: split_nl_aux rest [] := by
  induction xs with
  | nil => intro acc _; simp [split_nl_aux]
  | cons c xs ih =>
      intro acc h
      have hc : c ≠ '\n' := h c (by simp)
      simp only [List.cons_append, split_nl_aux, if_neg hc]
      have h2 := ih (c :: acc) (fun c2 hm => h c2 (by simp [hm]))
      rw [show (c :: acc).reverse ++ xs = acc.reverse ++ c :: xs by simp]
        at h2
      exact h2

theorem split_join (l : List String) (hne : l ≠ [])
    (h : ∀ s ∈ l, ∀ c ∈ s.data, c ≠ '\n') :
    split_nl (pyJoin "\n" l) = l := by
  induction l with
  | nil => exact absurd rfl hne
  | cons x xs ih =>
      cases xs with
      | nil =>
          unfold split_nl
          rw [show pyJoin "\n" [x] = x from rfl]
          rw [split_nl_aux_of_no_nl x.data [] (h x (by simp))]
          simp [mk_data_eq]
      | cons y ys =>
          unfold split_nl
          rw [show pyJoin "\n" (x :: y :: ys) =
            x ++ "\n" ++ pyJoin "\n" (y :: ys) from rfl]
          rw [str_data_append, str_data_append]
          rw [show ("\n" : String).data = ['\n'] from rfl]
          rw [List.append_assoc]
          rw [show (['\n'] ++ (pyJoin "\n" (y :: ys)).data) =
            '\n' :: (pyJoin "\n" (y :: ys)).data from rfl]
          rw [split_nl_aux_append x.data _ [] (h x (by simp))]
          have hih := ih (by simp) (fun s hs => h s (by simp [hs]))
          unfold split_nl at hih
          simp only [List.map, List.reverse_nil, List.nil_append]
          rw [mk_data_eq, hih]

/-! ### Helper lemmas for the Normalizer -/

/-- The result of per-event processing of one CloudWatch log event:
`some` of the parsed inner JSON when the `message` field is a string
holding valid JSON, else `none`. -/
def parsed_message (ev : Json) : Option Json :=
  match pySubscript ev "message" with
  | Except.ok (Json.str s) => jsonParse s
  | _ => none

theorem process_events_ok (evs : List Json)
    (h : ∀ ev ∈ evs, ∃ s, pySubscript ev "message" = Except.ok (Json.str s)) :
    process_events evs = Except.ok (evs.filterMap parsed_message) := by
  induction evs with
  | nil => rfl
  | cons ev rest ih =>
      obtain ⟨s, hs⟩ := h ev (by simp)
      have hih := ih (fun e he => h e (by simp [he]))
      simp only [process_events, hs, List.filterMap]
      cases hp : jsonParse s with
      | some p =>
          rw [hih]
          simp [parsed_message, hs, hp]
      | none =>
          rw [hih]
          simp [parsed_message, hs, hp]

/-! ### Concrete fixtures for the witness instances -/

/-- A concrete configuration (the module's terraform defaults:
`log_id`, `log_type`, `time`, `unknown`). -/
def cfg0 : Config := Config.mk "log_id" "log_type" "time" "unknown"

/-- A concrete wall-clock instant. -/
def dt0 : PyDateTime := PyDateTime.mk 1999 12 31 23 59 58

/-- Reduction of `classify_payload` on an object payload lacking the
timestamp field (after the id-field `setdefault`): it degrades the
type name and calls `append_to_dict` with no timestamp. -/
theorem classify_missing_ts_eq (cfg : Config) (d : BucketMap)
    (kvs : List (String × Json)) (now : PyDateTime) (fresh : String)
    (s : String) (hne : cfg.idField ≠ cfg.tsField)
    (hts : lookupKV kvs cfg.tsField = none)
    (hty : raw_type_name cfg (setdefault kvs cfg.idField Json.null).1 =
      Json.str s) :
    classify_payload cfg d (Json.obj kvs) now fresh =
      append_to_dict d (Json.str (no_ts_name cfg.unknownPfx s))
        (Json.obj (setdefault kvs cfg.idField Json.null).1) Json.null
        (setdefault kvs cfg.idField Json.null).2 now fresh := by
  have hts2 : lookupKV (setdefault kvs cfg.idField Json.null).1
      cfg.tsField = none := by
    rw [lookup_setdefault_ne kvs cfg.idField cfg.tsField Json.null hne]
    exact hts
  simp only [classify_payload, hts2, hty, degrade_type]

/-- **C1.** An entry lacking the configured timestamp field is filed
under the degraded bucket name — the unknown-prefix applied unless the
type already starts with it, then `"_no_timestamp"` appended
(`no_ts_name`) — and is appended passing only the identity: when it is
the first entry of that bucket, the bucket's `first_timestamp` is the
ambient wall clock `now`, the same for every entry content (so the
entry contributes no timestamp), and `first_id` comes from the
identity alone; when the bucket already exists its metadata is
untouched. -/
theorem classify_missing_timestamp (cfg : Config) (d : BucketMap)
    (kvs : List (String × Json)) (now : PyDateTime) (fresh : String)
    (s : String) (hne : cfg.idField ≠ cfg.tsField)
    (hts : lookupKV kvs cfg.tsField = none)
    (hty : raw_type_name cfg (setdefault kvs cfg.idField Json.null).1 =
      Json.str s) :
    (lookupB d (Json.str (no_ts_name cfg.unknownPfx s)) = none →
      classify_payload cfg d (Json.obj kvs) now fresh =
        Except.ok (d ++ [(Json.str (no_ts_name cfg.unknownPfx s),
          Bucket.mk [Json.obj (setdefault kvs cfg.idField Json.null).1]
            now
            (if truthy (setdefault kvs cfg.idField Json.null).2
             then (setdefault kvs cfg.idField Json.null).2
             else Json.str fresh))])) ∧
    (∀ b, lookupB d (Json.str (no_ts_name cfg.unknownPfx s)) = some b →
      classify_payload cfg d (Json.obj kvs) now fresh =
        Except.ok (appendRec d (Json.str (no_ts_name cfg.unknownPfx s))
          (Json.obj (setdefault kvs cfg.idField Json.null).1))) := by
  rw [classify_missing_ts_eq cfg d kvs now fresh s hne hts hty]
  constructor
  · intro hnew
    exact append_to_dict_new d _ _ _ _ now fresh _ hnew
      (init_meta_falsy_ts Json.null _ now fresh rfl)
  · intro b hold
    exact append_to_dict_existing d _ _ _ _ now fresh b hold

/-- Witness for C1: a concrete entry `{"log_type": "app"}` with no
timestamp field lands in bucket `unknown/app_no_timestamp`, with
`first_timestamp` the wall clock and `first_id` the fresh UUID. -/
theorem classify_missing_timestamp_witness :
    cfg0.idField ≠ cfg0.tsField ∧
    lookupKV [("log_type", Json.str "app")] cfg0.tsField = none ∧
    classify_payload cfg0 [] (Json.obj [("log_type", Json.str "app")])
        dt0 "u0" =
      Except.ok [(Json.str "unknown/app_no_timestamp",
        Bucket.mk
          [Json.obj [("log_type", Json.str "app"), ("log_id", Json.null)]]
          dt0 (Json.str "u0"))] := by
  refine ⟨by decide, rfl, ?_⟩
  exact (classify_missing_timestamp cfg0 [] [("log_type", Json.str "app")]
    dt0 "u0" "app" (by decide) rfl rfl).1 rfl

/-- Counterexample to C2 as stated: a present timestamp string the
permissive parser rejects makes `classify_payload` raise the
`ValueError` of `dateutil.parser.parse` (only `TypeError` is caught),
so the invocation does not continue. -/
theorem classify_bad_timestamp_raises :
    classify_payload cfg0 []
      (Json.obj [("log_type", Json.str "app"),
        ("time", Json.str "notatimestamp")]) dt0 "u0" =
      Except.error PyErr.valueError := rfl

/-- **C2 (amended).** On first insertion with a present (truthy)
timestamp the parse-failure fallback depends on the failure class:
a non-string timestamp value raises `TypeError`, which is caught, and
the bucket's `first_timestamp` falls back to the current wall-clock
time with the invocation continuing; a string value the parser
rejects raises `ValueError`, which is not caught and aborts the
invocation. -/
theorem append_timestamp_parse_failure (d : BucketMap) (t p ts lid : Json)
    (now : PyDateTime) (fresh : String)
    (hnew : lookupB d t = none) (htr : truthy ts = true) :
    (Json.isStr ts = false →
      append_to_dict d t p ts lid now fresh =
        Except.ok (d ++ [(t, Bucket.mk [p] now
          (if truthy lid then lid else Json.str fresh))])) ∧
    (∀ s, ts = Json.str s → parse_iso s = none →
      append_to_dict d t p ts lid now fresh =
        Except.error PyErr.valueError) := by
  constructor
  · intro hstr
    exact append_to_dict_new d t p ts lid now fresh _ hnew
      (init_meta_nonstr_ts ts lid now fresh htr hstr)
  · intro s hs hp
    subst hs
    unfold append_to_dict
    rw [hnew, init_meta_bad_str_ts s lid now fresh htr hp]

/-- Witness for the first branch of C2-amended: a numeric timestamp
value (a `TypeError` for the parser) falls back to the wall clock. -/
theorem append_timestamp_parse_failure_witness :
    lookupB [] (Json.str "app") = none ∧ truthy (Json.num 5) = true ∧
    Json.isStr (Json.num 5) = false ∧
    append_to_dict [] (Json.str "app") (Json.obj []) (Json.num 5)
        Json.null dt0 "u0" =
      Except.ok [(Json.str "app",
        Bucket.mk [Json.obj []] dt0 (Json.str "u0"))] := by
  refine ⟨rfl, rfl, rfl, ?_⟩
  exact (append_timestamp_parse_failure [] (Json.str "app") (Json.obj [])
    (Json.num 5) Json.null dt0 "u0" rfl rfl).1 rfl

/-- **C3.** Over any sequence of appends into an initially absent
bucket, the bucket's `first_timestamp`/`first_id` equal exactly the
metadata computed from the first call targeting that bucket
(`init_meta` of its timestamp/identity arguments), whatever any later
call carries: first-seen metadata is set once and never overwritten. -/
theorem run_appends_first_seen (cs : List AppendCall) (dfin : BucketMap)
    (t : Json) (b : Bucket) :
    ∀ d0, run_appends d0 cs = Except.ok dfin → lookupB d0 t = none →
      lookupB dfin t = some b →
      ∃ pre c post, cs = pre ++ c :: post ∧ c.log_type = t ∧
        (∀ c2 ∈ pre, c2.log_type ≠ t) ∧
        init_meta c.log_timestamp c.log_id c.now c.fresh =
          Except.ok (b.first_timestamp, b.first_id) := by
  induction cs with
  | nil =>
      intro d0 hrun h0 hb
      simp only [run_appends] at hrun
      injection hrun with h
      subst h
      rw [h0] at hb
      cases hb
  | cons c cs ih =>
      intro d0 hrun h0 hb
      simp only [run_appends] at hrun
      cases ha : append_to_dict d0 c.log_type c.log_data c.log_timestamp
          c.log_id c.now c.fresh with
      | error e => rw [ha] at hrun; cases hrun
      | ok d1 =>
          rw [ha] at hrun
          by_cases hct : c.log_type = t
          · obtain ⟨m, hm, hl1⟩ :=
              (append_to_dict_creates d0 c d1 t h0 ha).1 hct
            obtain ⟨b2, hb2, e1, e2⟩ := run_appends_preserves_meta cs dfin
              t d1 (Bucket.mk [c.log_data] m.1 m.2) hrun hl1
            rw [hb] at hb2
            injection hb2 with hb2
            refine ⟨[], c, cs, rfl, hct, by simp, ?_⟩
            rw [hm]
            rw [show b.first_timestamp = m.1 by rw [hb2]; exact e1]
            rw [show b.first_id = m.2 by rw [hb2]; exact e2]
          · have hl1 := (append_to_dict_creates d0 c d1 t h0 ha).2 hct
            obtain ⟨pre, c2, post, hcs, hc2, hpre, hinit⟩ :=
              ih d1 hrun hl1 hb
            refine ⟨c :: pre, c2, post, by rw [hcs]; rfl, hc2, ?_, hinit⟩
            intro x hx
            rcases List.mem_cons.mp hx with h | h
            · subst h; exact hct
            · exact hpre x h

/-- Witness for C3: two appends to bucket `"app"` with different
metadata; the final bucket metadata is the first call's. -/
theorem run_appends_first_seen_witness :
    ∃ pre c post,
      ([AppendCall.mk (Json.str "app") (Json.num 1)
          (Json.str "2024-01-02T03:04:05Z") (Json.str "abc") dt0 "u1",
        AppendCall.mk (Json.str "app") (Json.num 2)
          (Json.str "2030-05-06T07:08:09Z") (Json.str "zzz")
          (PyDateTime.mk 2031 1 1 0 0 0) "u2"] : List AppendCall) =
        pre ++ c :: post ∧
      c.log_type = Json.str "app" ∧
      (∀ c2 ∈ pre, c2.log_type ≠ Json.str "app") ∧
      init_meta c.log_timestamp c.log_id c.now c.fresh =
        Except.ok ((Bucket.mk [Json.num 1, Json.num 2]
          (PyDateTime.mk 2024 1 2 3 4 5)
          (Json.str "abc")).first_timestamp,
          (Bucket.mk [Json.num 1, Json.num 2]
            (PyDateTime.mk 2024 1 2 3 4 5)
            (Json.str "abc")).first_id) := by
  exact run_appends_first_seen _ _ (Json.str "app")
    (Bucket.mk [Json.num 1, Json.num 2] (PyDateTime.mk 2024 1 2 3 4 5)
      (Json.str "abc")) [] rfl rfl rfl

/-- Whatever branch `append_to_dict` takes, on success the `log_data`
argument itself ends up as the last record of bucket `t`, unmodified. -/
theorem append_to_dict_stores (d : BucketMap) (t p ts lid : Json)
    (now : PyDateTime) (fresh : String) (d2 : BucketMap)
    (h : append_to_dict d t p ts lid now fresh = Except.ok d2) :
    ∃ b, lookupB d2 t = some b ∧ b.records.getLast? = some p := by
  unfold append_to_dict at h
  cases hl : lookupB d t with
  | some b0 =>
      rw [hl] at h
      injection h with h
      subst h
      refine ⟨_, lookupB_appendRec_some d t p t b0 hl, ?_⟩
      simp
  | none =>
      rw [hl] at h
      cases hm : init_meta ts lid now fresh with
      | error e => rw [hm] at h; cases h
      | ok m =>
          rw [hm] at h
          injection h with h
          subst h
          refine ⟨Bucket.mk [p] m.1 m.2, ?_, rfl⟩
          rw [lookupB_append_of_none d t t _ hl]
          simp

/-- Counterexample to C4 as stated: an entry without the configured
identity field is mutated by the classifier — `dict.setdefault` adds
`log_id: None` — so the stored (and later serialized) record differs
from the normalized entry. -/
theorem classify_mutates_missing_id :
    classify_payload cfg0 []
      (Json.obj [("log_type", Json.str "app"),
        ("time", Json.str "2024-01-02T03:04:05Z")]) dt0 "u0" =
      Except.ok [(Json.str "app", Bucket.mk
        [Json.obj [("log_type", Json.str "app"),
          ("time", Json.str "2024-01-02T03:04:05Z"),
          ("log_id", Json.null)]]
        (PyDateTime.mk 2024 1 2 3 4 5) (Json.str "u0"))] ∧
    Json.obj [("log_type", Json.str "app"),
        ("time", Json.str "2024-01-02T03:04:05Z"),
        ("log_id", Json.null)] ≠
      Json.obj [("log_type", Json.str "app"),
        ("time", Json.str "2024-01-02T03:04:05Z")] :=
  ⟨rfl, by decide⟩

/-- **C4 (amended).** The only mutation between normalization and
serialization is `setdefault` on the identity field: every other
field is preserved verbatim (same key, same value), an entry already
carrying the identity field is stored fully verbatim, an entry
without it is stored with `log_id: None` appended; and on success the
stored record is exactly that `setdefault` result. Serialization
(`serialize_records`) is a pure function of the stored records. -/
theorem classify_setdefault_frame (cfg : Config) (d : BucketMap)
    (kvs : List (String × Json)) (now : PyDateTime) (fresh : String) :
    (∀ key, key ≠ cfg.idField →
      lookupKV (setdefault kvs cfg.idField Json.null).1 key =
        lookupKV kvs key) ∧
    (∀ w, lookupKV kvs cfg.idField = some w →
      (setdefault kvs cfg.idField Json.null).1 = kvs) ∧
    (lookupKV kvs cfg.idField = none →
      (setdefault kvs cfg.idField Json.null).1 =
        kvs ++ [(cfg.idField, Json.null)]) ∧
    (∀ d2, classify_payload cfg d (Json.obj kvs) now fresh =
        Except.ok d2 →
      ∃ t b, lookupB d2 t = some b ∧
        b.records.getLast? =
          some (Json.obj (setdefault kvs cfg.idField Json.null).1)) := by
  refine ⟨?_, ?_, ?_, ?_⟩
  · intro key hk
    exact lookup_setdefault_ne kvs cfg.idField key Json.null
      (fun he => hk he.symm)
  · intro w hw
    rw [setdefault_of_some kvs cfg.idField Json.null w hw]
  · intro hw
    rw [setdefault_of_none kvs cfg.idField Json.null hw]
  · intro d2 hok
    simp only [classify_payload] at hok
    cases hts : lookupKV (setdefault kvs cfg.idField Json.null).1
        cfg.tsField with
    | some ts =>
        rw [hts] at hok
        exact ⟨_, append_to_dict_stores _ _ _ _ _ _ _ _ hok⟩
    | none =>
        rw [hts] at hok
        cases hd : degrade_type cfg.unknownPfx
            (raw_type_name cfg (setdefault kvs cfg.idField Json.null).1)
            with
        | ok t2 =>
            rw [hd] at hok
            exact ⟨t2, append_to_dict_stores _ _ _ _ _ _ _ _ hok⟩
        | error e => rw [hd] at hok; cases hok

/-- Witness for C4-amended at a concrete entry lacking the identity
field: `log_id: None` is appended and the stored record is that
mutated entry. -/
theorem classify_setdefault_frame_witness :
    lookupKV [("log_type", Json.str "app")] cfg0.idField = none ∧
    (setdefault [("log_type", Json.str "app")] cfg0.idField Json.null).1 =
      [("log_type", Json.str "app")] ++ [(cfg0.idField, Json.null)] ∧
    (∃ t b,
      lookupB [(Json.str "unknown/app_no_timestamp",
        Bucket.mk
          [Json.obj [("log_type", Json.str "app"), ("log_id", Json.null)]]
          dt0 (Json.str "u0"))] t = some b ∧
      b.records.getLast? =
        some (Json.obj
          (setdefault [("log_type", Json.str "app")] cfg0.idField
            Json.null).1)) := by
  refine ⟨rfl, ?_, ?_⟩
  · exact (classify_setdefault_frame cfg0 [] [("log_type", Json.str "app")]
      dt0 "u0").2.2.1 rfl
  · exact (classify_setdefault_frame cfg0 [] [("log_type", Json.str "app")]
      dt0 "u0").2.2.2 _ rfl

/-- Counterexample to C5 as stated: a `DATA_MESSAGE` envelope whose
single (invalid) event lacks the `message` field makes the Normalizer
raise `KeyError` — only `JSONDecodeError` is caught — instead of
skipping the event and continuing. -/
theorem normalize_event_without_message_raises :
    normalize_parsed (Json.obj [("messageType", Json.str "DATA_MESSAGE"),
      ("logEvents", Json.arr [Json.obj []])]) =
      Except.error PyErr.keyError := rfl

/-- **C5 (amended).** For a `DATA_MESSAGE` envelope with an event
list in which every event carries a string `message` field, the
Normalizer returns exactly the parses of the events whose `message`
parses as JSON, in the events' relative order (`filterMap`); events
whose string `message` fails to parse contribute nothing and do not
raise.  (Events lacking the `message` field, or with a non-string
one, raise instead — see the counterexample.) -/
theorem normalize_data_message (kvs : List (String × Json))
    (evs : List Json)
    (hmt : lookupKV kvs "messageType" = some (Json.str "DATA_MESSAGE"))
    (hle : lookupKV kvs "logEvents" = some (Json.arr evs))
    (hwf : ∀ ev ∈ evs, ∃ s,
      pySubscript ev "message" = Except.ok (Json.str s)) :
    normalize_parsed (Json.obj kvs) =
      Except.ok (evs.filterMap parsed_message) := by
  unfold normalize_parsed
  simp only [pyIn, pySubscript, pyIterate, hmt, hle, Option.isSome_some,
    if_pos rfl]
  exact process_events_ok evs hwf

/-- Witness for C5-amended: an envelope with one valid and one
invalid (non-JSON string message) event yields exactly the one parsed
entry. -/
theorem normalize_data_message_witness :
    (∀ ev ∈ ([Json.obj [("message", Json.str "\x7b\"a\": 1\x7d")],
        Json.obj [("message", Json.str "oops")]] : List Json),
      ∃ s, pySubscript ev "message" = Except.ok (Json.str s)) ∧
    normalize_parsed (Json.obj [("messageType", Json.str "DATA_MESSAGE"),
        ("logEvents", Json.arr
          [Json.obj [("message", Json.str "\x7b\"a\": 1\x7d")],
           Json.obj [("message", Json.str "oops")]])]) =
      Except.ok [Json.obj [("a", Json.num 1)]] := by
  constructor
  · intro ev h
    simp only [List.mem_cons, List.not_mem_nil, or_false] at h
    rcases h with h | h <;> subst h <;> exact ⟨_, rfl⟩
  · exact normalize_data_message
      [("messageType", Json.str "DATA_MESSAGE"),
       ("logEvents", Json.arr
         [Json.obj [("message", Json.str "\x7b\"a\": 1\x7d")],
          Json.obj [("message", Json.str "oops")]])]
      [Json.obj [("message", Json.str "\x7b\"a\": 1\x7d")],
       Json.obj [("message", Json.str "oops")]] rfl rfl (by
      intro ev h
      simp only [List.mem_cons, List.not_mem_nil, or_false] at h
      rcases h with h | h <;> subst h <;> exact ⟨_, rfl⟩)

/-- Counterexample to C6 as stated: the well-formed JSON payload
`42` has no discriminator field, yet the Normalizer raises
`TypeError` (Python `'messageType' in 42`) instead of returning one
entry. -/
theorem normalize_number_payload_raises :
    normalize_kinesis_payload "42" = Except.error PyErr.typeError := rfl

/-- **C6 (amended).** For every payload whose parse result is a JSON
object without the `messageType` discriminator field, the Normalizer
returns exactly one entry, equal to the parsed input, without
raising. -/
theorem normalize_no_discriminator (s : String)
    (kvs : List (String × Json))
    (hparse : jsonParse s = some (Json.obj kvs))
    (hmt : lookupKV kvs "messageType" = none) :
    normalize_kinesis_payload s = Except.ok [Json.obj kvs] := by
  have hlen : ¬ s.length < 1 := by
    intro hl
    have h0 : s.data = [] :=
      List.length_eq_zero.mp (Nat.lt_one_iff.mp hl)
    have hs : s = "" := by
      have h1 := congrArg String.mk h0
      rw [mk_data_eq] at h1
      exact h1
    rw [hs] at hparse
    exact Option.noConfusion hparse
  unfold normalize_kinesis_payload
  rw [if_neg hlen, hparse]
  unfold normalize_parsed
  simp [pyIn, hmt]

/-- Witness for C6-amended: a concrete object payload without the
discriminator passes through as the sole entry. -/
theorem normalize_no_discriminator_witness :
    jsonParse "\x7b\"a\": 1\x7d" = some (Json.obj [("a", Json.num 1)]) ∧
    lookupKV [("a", Json.num 1)] "messageType" = none ∧
    normalize_kinesis_payload "\x7b\"a\": 1\x7d" =
      Except.ok [Json.obj [("a", Json.num 1)]] := by
  refine ⟨rfl, rfl, ?_⟩
  exact normalize_no_discriminator _ _ rfl rfl

/-- **C7.** Any envelope whose `messageType` discriminator holds a
value other than `"DATA_MESSAGE"` or `"CONTROL_MESSAGE"` makes the
Normalizer raise the fatal `ValueError` that aborts the invocation. -/
theorem normalize_unknown_discriminator (kvs : List (String × Json))
    (v : Json) (hv : lookupKV kvs "messageType" = some v)
    (h1 : v ≠ Json.str "DATA_MESSAGE")
    (h2 : v ≠ Json.str "CONTROL_MESSAGE") :
    normalize_parsed (Json.obj kvs) = Except.error PyErr.valueError := by
  unfold normalize_parsed
  simp [pyIn, pySubscript, hv, h1, h2]

/-- Witness for C7 at a concrete unrecognized discriminator. -/
theorem normalize_unknown_discriminator_witness :
    lookupKV [("messageType", Json.str "WEIRD")] "messageType" =
      some (Json.str "WEIRD") ∧
    Json.str "WEIRD" ≠ Json.str "DATA_MESSAGE" ∧
    Json.str "WEIRD" ≠ Json.str "CONTROL_MESSAGE" ∧
    normalize_parsed (Json.obj [("messageType", Json.str "WEIRD")]) =
      Except.error PyErr.valueError := by
  refine ⟨rfl, by decide, by decide, ?_⟩
  exact normalize_unknown_discriminator _ _ rfl (by decide) (by decide)

theorem str_ext (s1 s2 : String) (h : s1.data = s2.data) : s1 = s2 := by
  cases s1; cases s2; exact congrArg String.mk h

theorem str_append_assoc (a b c : String) : a ++ b ++ c = a ++ (b ++ c) :=
  str_ext _ _ (by
    rw [str_data_append, str_data_append, str_data_append,
      str_data_append, List.append_assoc])

/-- **C8.** A first-classified entry of type `"app"`, identity
`"abc"` and timestamp `2024-01-02T03:04:05Z` yields a bucket whose
storage key is `<prefix>/app/2024-01/02/2024-01-02-03:04:05-abc.gz`:
the date/time components come from `first_timestamp` and the
percent-encoded `first_id` is the disambiguating suffix. -/
theorem upload_key_example (pathPfx : String) :
    classify_payload cfg0 []
        (Json.obj [("log_type", Json.str "app"),
          ("log_id", Json.str "abc"),
          ("time", Json.str "2024-01-02T03:04:05Z")]) dt0 "u0" =
      Except.ok [(Json.str "app",
        Bucket.mk [Json.obj [("log_type", Json.str "app"),
          ("log_id", Json.str "abc"),
          ("time", Json.str "2024-01-02T03:04:05Z")]]
          (PyDateTime.mk 2024 1 2 3 4 5) (Json.str "abc"))] ∧
    bucket_key pathPfx (Json.str "app")
        (Bucket.mk [Json.obj [("log_type", Json.str "app"),
          ("log_id", Json.str "abc"),
          ("time", Json.str "2024-01-02T03:04:05Z")]]
          (PyDateTime.mk 2024 1 2 3 4 5) (Json.str "abc")) =
      Except.ok (pathPfx ++ "/app/2024-01/02/2024-01-02-03:04:05-abc.gz")
    := by
  constructor
  · rfl
  · unfold bucket_key
    rw [show pyQuote (Json.str "abc") = Except.ok "abc" from rfl]
    rw [show strftime_key (PyDateTime.mk 2024 1 2 3 4 5) =
      "2024-01/02/2024-01-02-03:04:05-" from rfl]
    simp only [str_append_assoc]
    rfl

/-- **C9.** For a non-empty bucket of (object) entries,
un-compressing the uploaded blob — for any compress/decompress pair
that invert each other, as `gzip.compress`/`gzip.decompress` do — and
splitting it by newline reproduces exactly the serialized form
(`pyStr`) of every entry, in arrival order. -/
theorem upload_roundtrip (gz gunzip : String → String)
    (records : List Json)
    (hinv : ∀ s, gunzip (gz s) = s)
    (hne : records ≠ [])
    (hobj : ∀ r ∈ records, Json.isObj r = true) :
    split_nl (gunzip (gz (serialize_records records))) =
      records.map pyStr := by
  rw [hinv]
  unfold serialize_records
  apply split_join
  · intro h
    exact hne (List.map_eq_nil_iff.mp h)
  · intro s hs
    obtain ⟨r, hr, hsr⟩ := List.mem_map.mp hs
    subst hsr
    have hobj2 := hobj r hr
    cases r <;> simp [Json.isObj] at hobj2
    case obj kvs => exact pyRepr_no_nl (Json.obj kvs)

/-- Witness for C9 with the identity compress/decompress pair and one
concrete entry. -/
theorem upload_roundtrip_witness :
    ([Json.obj [("a", Json.str "x")]] : List Json) ≠ [] ∧
    (∀ r ∈ ([Json.obj [("a", Json.str "x")]] : List Json),
      Json.isObj r = true) ∧
    split_nl (serialize_records [Json.obj [("a", Json.str "x")]]) =
      [Json.obj [("a", Json.str "x")]].map pyStr := by
  refine ⟨by simp, ?_, ?_⟩
  · intro r h
    simp only [List.mem_cons, List.not_mem_nil, or_false] at h
    subst h
    rfl
  · exact upload_roundtrip (fun s => s) (fun s => s)
      [Json.obj [("a", Json.str "x")]] (fun s => rfl) (by simp) (by
        intro r h
        simp only [List.mem_cons, List.not_mem_nil, or_false] at h
        subst h
        rfl)

/-- **C10.** First-seen capture tests truthiness, not key presence:
when the first entry of a bucket carries the identity field with a
falsy value (empty string or null), `first_id` is the freshly
generated UUID instead of the supplied value, and a present-but-falsy
timestamp value is likewise replaced by the current wall-clock
time. -/
theorem classify_falsy_id_timestamp (cfg : Config) (d : BucketMap)
    (kvs : List (String × Json)) (now : PyDateTime) (fresh : String)
    (lid ts : Json)
    (hid : lookupKV kvs cfg.idField = some lid)
    (hlid : truthy lid = false)
    (hts : lookupKV kvs cfg.tsField = some ts)
    (htst : truthy ts = false)
    (hnew : lookupB d (raw_type_name cfg kvs) = none) :
    classify_payload cfg d (Json.obj kvs) now fresh =
      Except.ok (d ++ [(raw_type_name cfg kvs,
        Bucket.mk [Json.obj kvs] now (Json.str fresh))]) := by
  have hsd : setdefault kvs cfg.idField Json.null = (kvs, lid) :=
    setdefault_of_some kvs cfg.idField Json.null lid hid
  have hm : init_meta ts lid now fresh = Except.ok (now, Json.str fresh)
    := by
    rw [init_meta_falsy_ts ts lid now fresh htst, hlid]
    simp
  simp only [classify_payload, hsd, hts]
  exact append_to_dict_new d _ _ ts lid now fresh (now, Json.str fresh)
    hnew hm

/-- Witness for C10: empty-string identity and empty-string timestamp
on the first `"app"` entry give `first_id = "u0"` (the fresh UUID) and
`first_timestamp` equal to the wall clock. -/
theorem classify_falsy_id_timestamp_witness :
    lookupKV [("log_id", Json.str ""), ("log_type", Json.str "app"),
        ("time", Json.str "")] cfg0.idField = some (Json.str "") ∧
    truthy (Json.str "") = false ∧
    classify_payload cfg0 []
        (Json.obj [("log_id", Json.str ""), ("log_type", Json.str "app"),
          ("time", Json.str "")]) dt0 "u0" =
      Except.ok [(Json.str "app",
        Bucket.mk [Json.obj [("log_id", Json.str ""),
          ("log_type", Json.str "app"), ("time", Json.str "")]]
          dt0 (Json.str "u0"))] := by
  refine ⟨rfl, rfl, ?_⟩
  exact classify_falsy_id_timestamp cfg0 []
    [("log_id", Json.str ""), ("log_type", Json.str "app"),
     ("time", Json.str "")] dt0 "u0" (Json.str "") (Json.str "")
    rfl rfl rfl rfl rfl

end KinesisToS3
